import Mathlib

/-!
Shallow embedding of the pyignite thin-client query engine
(src/pyignite/queries/query.py, src/pyignite/api/binary.py,
src/pyignite/api/sql.py) and proofs about the request framing, the
schema-id hash, the affinity-version update and the perform paths.

Python integers are modelled as `Int` (Lean's `/` and `%` on `Int` are
Euclidean, which for the positive divisors used here coincides with
Python's floor division `//` and `%`).  Byte strings are `List Nat`
(each entry one byte).  Fallible Python code returns `Except PyErr`.
-/

/-- The Python exceptions the embedded code can raise. -/
inductive PyErr where
  /-- `TypeError`, e.g. subscripting `None`. -/
  | typeError
  /-- `KeyError`, a missing dict key. -/
  | keyError
  /-- `OverflowError` from `int.to_bytes` on an out-of-range value. -/
  | overflowError
  /-- `NotSupportedByClusterError` (pyignite.exceptions). -/
  | notSupportedByClusterError
  /-- Any failure inside an opaque field codec. -/
  | codecError
deriving DecidableEq

/-- An in-memory seekable byte buffer: the `BinaryStream` / `io.BytesIO`
collaborator.  `data` is the buffer, `pos` the cursor. -/
structure ByteStream where
  data : List Nat
  pos : Nat
deriving DecidableEq

/-- `stream.tell()`. -/
def ByteStream.tell (s : ByteStream) : Nat := s.pos

/-- `stream.seek(n, SEEK_CUR)` with a non-negative offset. -/
def ByteStream.seekCur (s : ByteStream) (n : Nat) : ByteStream := ⟨s.data, s.pos + n⟩

/-- `stream.seek(n)` (absolute). -/
def ByteStream.seekTo (s : ByteStream) (n : Nat) : ByteStream := ⟨s.data, n⟩

/-- `stream.write(bs)` with `BytesIO` semantics: a gap between the end of
the buffer and the cursor is zero-filled, bytes under the cursor are
overwritten, the buffer grows as needed, the cursor advances. -/
def ByteStream.write (s : ByteStream) (bs : List Nat) : ByteStream :=
  let d := if s.data.length < s.pos then s.data ++ List.replicate (s.pos - s.data.length) 0
           else s.data
  ⟨d.take s.pos ++ bs ++ d.drop (s.pos + bs.length), s.pos + bs.length⟩

/-- `stream.getvalue()`. -/
def ByteStream.getvalue (s : ByteStream) : List Nat := s.data

/-- Little-endian two's-complement encoding of an integer into `w` bytes,
as a packed `ctypes.LittleEndianStructure` field of width `w` stores it. -/
def i2bytesLE (w : Nat) (v : Int) : List Nat :=
  (List.range w).map (fun k => ((v % ((2 : Int) ^ (8 * w))).toNat >>> (8 * k)) % 256)

/-- Little-endian recomposition of a byte list into a natural number. -/
def decodeLENat (bs : List Nat) : Nat := bs.foldr (fun b acc => b + 256 * acc) 0

/-- Modelled from the spec: `parsed_length(frame)`, the value of the
`[int32 length]` prefix — the first four bytes of the frame read as a
little-endian signed 32-bit integer.  (The spec's response/request frame
layout; the parsing code itself is the ctypes layer, not under src/.) -/
def specParsedLength (frame : List Nat) : Int :=
  let u := decodeLENat (frame.take 4)
  if u < 2 ^ 31 then (u : Int) else (u : Int) - 2 ^ 32

/-- Modelled from the spec: `MIN_LONG`, the least signed 64-bit value
(pyignite.constants is not under src/; the spec calls the correlation id
a 64-bit value). -/
def MIN_LONG : Int := -(2 ^ 63)

/-- Modelled from the spec: `MAX_LONG`, the greatest signed 64-bit value. -/
def MAX_LONG : Int := 2 ^ 63 - 1

/-- Python dict lookup `d[name]` over an association list (keys unique). -/
def dict_get {V : Type} (name : String) : List (String × V) → Option V
  | [] => none
  | (k, v) :: rest => if k = name then some v else dict_get name rest

/-- Python truthiness of the `values` argument: `values if values else None`
(an absent or empty dict collapses to `None`). -/
def pyTruthy {V : Type} : Option (List (String × V)) → Option (List (String × V))
  | none => none
  | some [] => none
  | some l => some l

/-- An opaque per-field codec (the `c_type` entries of `Query.following`):
`encode` is `c_type.from_python(stream, value)` — the bytes it appends to
the stream — and `encodeAsync` its `from_python_async` counterpart. -/
structure Codec (V : Type) where
  encode : V → Except PyErr (List Nat)
  encodeAsync : V → Except PyErr (List Nat)

/-- `Query` (query.py lines 78-84): an op code, the declared `following`
fields, and the optional caller-supplied `query_id`. -/
structure Query (V : Type) where
  op_code : Int
  following : List (String × Codec V)
  query_id : Option Int

/-- The ctypes header of `Query.build_c_type` (query.py lines 86-101):
`length` (c_int), `op_code` (c_short), `query_id` (c_longlong), `_pack_ = 1`.
Every field of a fresh ctypes structure is zero-initialised. -/
structure QueryHeader where
  length : Int
  op_code : Int
  query_id : Int
deriving DecidableEq

/-- `ctypes.sizeof` of the `Query` header: 4 + 2 + 8. -/
def Query.header_len : Nat := 14

/-- The bytes `stream.write(header)` emits for a `Query` header. -/
def QueryHeader.toBytes (h : QueryHeader) : List Nat :=
  i2bytesLE 4 h.length ++ i2bytesLE 2 h.op_code ++ i2bytesLE 8 h.query_id

/-- `Query._build_header` (query.py lines 121-131): seek past the header
region, zero-initialise the ctypes header, set `op_code`, and set
`query_id` to `randint(MIN_LONG, MAX_LONG)` only when `self.query_id is
None`.  A caller-supplied `query_id` is never copied into the header, so
the header keeps the ctypes zero default in that case.  `rand` stands for
the value `randint` returned. -/
def Query.build_header {V : Type} (q : Query V) (rand : Int) (s : ByteStream) :
    QueryHeader × ByteStream :=
  (⟨0, q.op_code, match q.query_id with | none => rand | some _ => 0⟩,
   s.seekCur Query.header_len)

/-- `Query.__write_header` (query.py lines 133-137): patch `header.length`
to `stream.tell() - init_pos - ctypes.sizeof(ctypes.c_int)`, seek back to
`init_pos` and write the header bytes. -/
def Query.write_header (s : ByteStream) (h : QueryHeader) (init_pos : Nat) : ByteStream :=
  let h2 : QueryHeader := { h with length := (s.tell : Int) - (init_pos : Int) - 4 }
  (s.seekTo init_pos).write h2.toBytes

/-- The loop of `Query.from_python`: for each declared `(name, c_type)`,
look `name` up in `values` (`TypeError` when `values` is `None`,
`KeyError` when the key is missing) and stream the codec's bytes. -/
def runFields {V : Type} (vals : Option (List (String × V))) :
    List (String × Codec V) → ByteStream → Except PyErr ByteStream
  | [], s => .ok s
  | (name, c) :: rest, s =>
    match vals with
    | none => .error .typeError
    | some d =>
      match dict_get name d with
      | none => .error .keyError
      | some v =>
        match c.encode v with
        | .error e => .error e
        | .ok bs => runFields vals rest (s.write bs)

/-- The same loop via each codec's `from_python_async`. -/
def runFieldsAsync {V : Type} (vals : Option (List (String × V))) :
    List (String × Codec V) → ByteStream → Except PyErr ByteStream
  | [], s => .ok s
  | (name, c) :: rest, s =>
    match vals with
    | none => .error .typeError
    | some d =>
      match dict_get name d with
      | none => .error .keyError
      | some v =>
        match c.encodeAsync v with
        | .error e => .error e
        | .ok bs => runFieldsAsync vals rest (s.write bs)

/-- `Query.from_python` (query.py lines 103-110): remember `init_pos`,
build the header (which seeks past the header region), collapse falsy
`values` to `None`, stream each declared field, then back-patch and write
the header. -/
def Query.from_python {V : Type} (q : Query V) (rand : Int)
    (values : Option (List (String × V))) (stream : ByteStream) :
    Except PyErr ByteStream :=
  let init_pos := stream.tell
  let hs := q.build_header rand stream
  match runFields (pyTruthy values) q.following hs.2 with
  | .error e => .error e
  | .ok s2 => .ok (Query.write_header s2 hs.1 init_pos)

/-- `Query.from_python_async` (query.py lines 112-119): identical to
`from_python` except each field is streamed via `from_python_async`. -/
def Query.from_python_async {V : Type} (q : Query V) (rand : Int)
    (values : Option (List (String × V))) (stream : ByteStream) :
    Except PyErr ByteStream :=
  let init_pos := stream.tell
  let hs := q.build_header rand stream
  match runFieldsAsync (pyTruthy values) q.following hs.2 with
  | .error e => .error e
  | .ok s2 => .ok (Query.write_header s2 hs.1 init_pos)

/-- `ConfigQuery` (query.py lines 217-221): same attributes as `Query`,
different header type and `_build_header`. -/
structure ConfigQuery (V : Type) where
  op_code : Int
  following : List (String × Codec V)
  query_id : Option Int

/-- The ctypes header of `ConfigQuery.build_c_type` (query.py lines
223-239): `length`, `op_code`, `query_id`, `config_length` (c_int). -/
structure ConfigQueryHeader where
  length : Int
  op_code : Int
  query_id : Int
  config_length : Int
deriving DecidableEq

/-- `ctypes.sizeof` of the `ConfigQuery` header: 4 + 2 + 8 + 4. -/
def ConfigQuery.header_len : Nat := 18

/-- The bytes `stream.write(header)` emits for a `ConfigQuery` header. -/
def ConfigQueryHeader.toBytes (h : ConfigQueryHeader) : List Nat :=
  i2bytesLE 4 h.length ++ i2bytesLE 2 h.op_code ++ i2bytesLE 8 h.query_id ++
    i2bytesLE 4 h.config_length

/-- `ConfigQuery._build_header` (query.py lines 241-244): run the base
`_build_header` (which seeks past this class's 18-byte header and leaves
`header.length` at its ctypes zero default), then set
`header.config_length = header.length - ctypes.sizeof(type(header))`.
`header.length` is still 0 at this point — it is only patched later by
`Query.__write_header`, which does not recompute `config_length` — so the
stored `config_length` is `0 - 18`. -/
def ConfigQuery.build_header {V : Type} (q : ConfigQuery V) (rand : Int) (s : ByteStream) :
    ConfigQueryHeader × ByteStream :=
  let base_length : Int := 0
  let base_query_id : Int := match q.query_id with | none => rand | some _ => 0
  (⟨base_length, q.op_code, base_query_id, base_length - 18⟩,
   s.seekCur ConfigQuery.header_len)

/-- `Query.__write_header` as inherited by `ConfigQuery`: patches only the
`length` field, then writes the whole 18-byte header. -/
def ConfigQuery.write_header (s : ByteStream) (h : ConfigQueryHeader) (init_pos : Nat) :
    ByteStream :=
  let h2 : ConfigQueryHeader := { h with length := (s.tell : Int) - (init_pos : Int) - 4 }
  (s.seekTo init_pos).write h2.toBytes

/-- `Query.from_python` as inherited by `ConfigQuery` (dynamic dispatch
picks `ConfigQuery._build_header` and the 18-byte header type). -/
def ConfigQuery.from_python {V : Type} (q : ConfigQuery V) (rand : Int)
    (values : Option (List (String × V))) (stream : ByteStream) :
    Except PyErr ByteStream :=
  let init_pos := stream.tell
  let hs := q.build_header rand stream
  match runFields (pyTruthy values) q.following hs.2 with
  | .error e => .error e
  | .ok s2 => .ok (ConfigQuery.write_header s2 hs.1 init_pos)

/-- A codec that always appends a fixed byte string (used to instantiate
theorems at concrete queries). -/
def constCodec (bs : List Nat) : Codec Unit :=
  ⟨fun _ => .ok bs, fun _ => .ok bs⟩

/-- Modelled from the spec: `pyignite.utils.int_overflow` (not under src/)
truncates a Python int to 32-bit signed wraparound — two's-complement
overflow semantics, never saturating or raising. -/
def int_overflow (v : Int) : Int := (v + 2 ^ 31) % 2 ^ 32 - 2 ^ 31

/-- Modelled from the spec: the FNV-1 32-bit offset basis
(`pyignite.constants.FNV1_OFFSET_BASIS`, not under src/). -/
def FNV1_OFFSET_BASIS : Int := 2166136261

/-- Modelled from the spec: the FNV-1 32-bit prime
(`pyignite.constants.FNV1_PRIME`, not under src/). -/
def FNV1_PRIME : Int := 16777619

/-- One iteration of the schema-id loop of `put_binary_type` (binary.py
lines 160-167) over one field's entity id: for each of the four byte
positions, `schema_id ^= (field_id >> k) & 0xff` then
`schema_id = int_overflow(schema_id * FNV1_PRIME)`.  Python `^`, `&` and
`>>` on ints are two's-complement `Int.xor`, `Int.land` and arithmetic
shift. -/
def schema_id_field_step (schema_id field_id : Int) : Int :=
  let s1 := int_overflow (Int.xor schema_id (Int.land field_id 255) * FNV1_PRIME)
  let s2 := int_overflow (Int.xor s1 (Int.land (field_id >>> (8 : Nat)) 255) * FNV1_PRIME)
  let s3 := int_overflow (Int.xor s2 (Int.land (field_id >>> (16 : Nat)) 255) * FNV1_PRIME)
  int_overflow (Int.xor s3 (Int.land (field_id >>> (24 : Nat)) 255) * FNV1_PRIME)

/-- The `schema_id` computed by `put_binary_type` (binary.py lines
138-167) and then placed both into `data['schema']` (line 170) and into
`result.value['schema_id']` (line 208), as a function of `is_enum` and
of the 32-bit entity ids of the schema's field names (in iteration
order; `entity_id` itself is an opaque collaborator).  `schema_id` is
initialised to Python `None` (here `none`) and is assigned only in the
non-enum branch: `FNV1_OFFSET_BASIS if schema else 0`, then the per-field
loop. -/
def put_binary_type_schema_id (is_enum : Bool) (field_ids : List Int) : Option Int :=
  if is_enum then none
  else some (List.foldl schema_id_field_step
    (if field_ids = [] then 0 else FNV1_OFFSET_BASIS) field_ids)

/-- Modelled from the spec: the four bytes of a field's 32-bit entity id,
least-significant first. -/
def spec_id_bytes (field_id : Int) : List Nat :=
  let u := (field_id % 2 ^ 32).toNat
  [u % 256, (u >>> 8) % 256, (u >>> 16) % 256, (u >>> 24) % 256]

/-- Modelled from the spec: one FNV-1 fold step — XOR the accumulator
with the byte, then multiply by the FNV-1 prime with exact 32-bit signed
wraparound. -/
def spec_fnv1_step (acc : Int) (b : Nat) : Int :=
  int_overflow (Int.xor acc (b : Int) * FNV1_PRIME)

/-- Modelled from the spec: the schema id of §4.1 — the FNV-1 fold over
every field's four bytes (least-significant first), starting from the
offset basis; exactly 0 for the empty field sequence. -/
def spec_schema_id (field_ids : List Int) : Int :=
  if field_ids = [] then 0
  else List.foldl (fun acc f => List.foldl spec_fnv1_step acc (spec_id_bytes f))
    FNV1_OFFSET_BASIS field_ids

theorem nat_ldiff_255 (m : Nat) : Nat.ldiff 255 m = 255 - m % 256 := by
  apply Nat.eq_of_testBit_eq
  intro i
  rw [Nat.testBit_ldiff]
  have h255 : Nat.testBit 255 i = decide (i < 8) := by
    have h := Nat.testBit_two_pow_sub_one 8 i
    norm_num at h
    exact h
  have hsub : 255 - m % 256 = 2 ^ 8 - (m % 256 + 1) := by omega
  rw [h255, hsub, Nat.testBit_two_pow_sub_succ (by omega)]
  have hmod : Nat.testBit (m % 256) i = (decide (i < 8) && Nat.testBit m i) := by
    have h := Nat.testBit_mod_two_pow m 8 i
    norm_num at h
    exact h
  rw [hmod]
  by_cases hi : i < 8 <;> simp [hi]

/-- Python `z & 0xff` on an arbitrary int is `z mod 256`. -/
theorem int_land_255 (z : Int) : Int.land z 255 = z % 256 := by
  cases z with
  | ofNat m =>
    show (Int.ofNat (m &&& 255) : Int) = Int.ofNat m % 256
    have h : m &&& 255 = m % 256 := by
      have h := Nat.and_pow_two_sub_one_eq_mod m 8
      norm_num at h
      exact h
    rw [h]
    simp only [Int.ofNat_eq_natCast]
    omega
  | negSucc m =>
    show (Int.ofNat (Nat.ldiff 255 m) : Int) = Int.negSucc m % 256
    rw [nat_ldiff_255, Int.negSucc_eq]
    simp only [Int.ofNat_eq_natCast]
    omega

theorem int_byte0 (f : Int) :
    Int.land f 255 = (((f % 2 ^ 32).toNat) % 256 : Nat) := by
  rw [int_land_255]
  omega

theorem int_byte1 (f : Int) :
    Int.land (f >>> (8 : Nat)) 255 = (((f % 2 ^ 32).toNat >>> 8) % 256 : Nat) := by
  rw [int_land_255, Int.shiftRight_eq_div_pow, Nat.shiftRight_eq_div_pow]
  norm_num
  omega

theorem int_byte2 (f : Int) :
    Int.land (f >>> (16 : Nat)) 255 = (((f % 2 ^ 32).toNat >>> 16) % 256 : Nat) := by
  rw [int_land_255, Int.shiftRight_eq_div_pow, Nat.shiftRight_eq_div_pow]
  norm_num
  omega

theorem int_byte3 (f : Int) :
    Int.land (f >>> (24 : Nat)) 255 = (((f % 2 ^ 32).toNat >>> 24) % 256 : Nat) := by
  rw [int_land_255, Int.shiftRight_eq_div_pow, Nat.shiftRight_eq_div_pow]
  norm_num
  omega

/-- The source's per-field step equals the spec's byte-wise FNV-1 fold
over that field's four bytes. -/
theorem schema_id_field_step_eq_spec (acc f : Int) :
    schema_id_field_step acc f = List.foldl spec_fnv1_step acc (spec_id_bytes f) := by
  simp only [schema_id_field_step, spec_id_bytes, spec_fnv1_step, List.foldl]
  rw [int_byte1 f, int_byte2 f, int_byte3 f, int_byte0 f]

/-- C3: for every ordered sequence of 32-bit entity ids, the schema id
computed by `put_binary_type`'s non-enum branch equals the FNV-1 32-bit
fold the spec describes — start from the offset basis and, for each
field's four bytes least-significant first, XOR the accumulator with the
byte and multiply by the FNV-1 prime with exact 32-bit signed
two's-complement wraparound — and for the empty sequence it is exactly 0. -/
theorem put_binary_type_schema_id_eq_fnv1_fold :
    (∀ field_ids : List Int,
        put_binary_type_schema_id false field_ids = some (spec_schema_id field_ids))
    ∧ put_binary_type_schema_id false [] = some 0 := by
  constructor
  · intro field_ids
    simp only [put_binary_type_schema_id, spec_schema_id, if_neg, Bool.false_eq_true,
      reduceIte, Option.some.injEq]
    by_cases h : field_ids = []
    · subst h
      simp
    · rw [if_neg h, if_neg h]
      exact List.foldl_ext _ _ _ (fun acc f _ => schema_id_field_step_eq_spec acc f)
  · rfl

/-- C4 counterexample: with `is_enum=True` the schema id `put_binary_type`
prepares for the schema block and the success result value is not 0 — the
enum branch never assigns `schema_id`, which keeps its initial Python
`None`. -/
theorem put_binary_type_enum_schema_id_not_zero :
    put_binary_type_schema_id true [978963694, 215946885] ≠ some 0 := by
  decide

/-- C4 amended: for every call of `put_binary_type` with `is_enum=True`,
the schema id carried in the request's schema block and in the success
result value is Python `None` (the enum branch leaves `schema_id`
unassigned); the 0 schema id arises only in the non-enum branch for an
empty field set. -/
theorem put_binary_type_enum_schema_id_none :
    (∀ field_ids : List Int, put_binary_type_schema_id true field_ids = none)
    ∧ put_binary_type_schema_id false [] = some 0 := by
  exact ⟨fun _ => rfl, rfl⟩

/-- C1: evaluation at the failing input.  A `Query` with the
caller-supplied correlation id 7 (op code 1, no fields) serialises to a
frame whose 8-byte correlation-id field (bytes 6..13) holds 0, not the
supplied 7 — `_build_header` only assigns `header.query_id` when
`self.query_id is None`, so a supplied id is dropped and the ctypes zero
default is emitted ( `rand = 99` plays `randint`'s role and is unused on
this path). -/
theorem query_id_field_zero_when_supplied :
    (Query.from_python (⟨1, [], some 7⟩ : Query Unit) 99 none ⟨[], 0⟩).map ByteStream.getvalue
      = .ok [10, 0, 0, 0, 1, 0, 0, 0, 0, 0, 0, 0, 0, 0]
    ∧ List.take 8 (List.drop 6 [10, 0, 0, 0, 1, 0, 0, 0, 0, 0, 0, 0, 0, 0])
        = i2bytesLE 8 0
    ∧ i2bytesLE 8 0 ≠ i2bytesLE 8 7 := by
  refine ⟨rfl, by decide, by decide⟩

/-- C2: evaluation at the failing input.  A `ConfigQuery` (op code 1,
supplied correlation id 0) with one declared field that serialises to two
bytes produces a 20-byte frame whose outer length field is 16 but whose
`config_length` field (bytes 14..17) holds -18: `ConfigQuery._build_header`
computes `config_length` from `header.length` before `__write_header`
back-patches the length, so the emitted value is `0 - sizeof(header)`,
not the configuration sub-block's byte count (16 - 14 = 2). -/
theorem config_length_field_stale :
    (ConfigQuery.from_python (⟨1, [(("a"), constCodec [9, 9])], some 0⟩ : ConfigQuery Unit) 0
        (some [(("a"), ())]) ⟨[], 0⟩).map ByteStream.getvalue
      = .ok [16, 0, 0, 0, 1, 0, 0, 0, 0, 0, 0, 0, 0, 0, 238, 255, 255, 255, 9, 9]
    ∧ specParsedLength
        (List.drop 14 [16, 0, 0, 0, 1, 0, 0, 0, 0, 0, 0, 0, 0, 0, 238, 255, 255, 255, 9, 9])
        = -18
    ∧ specParsedLength
        [16, 0, 0, 0, 1, 0, 0, 0, 0, 0, 0, 0, 0, 0, 238, 255, 255, 255, 9, 9] = 16
    ∧ (-18 : Int) ≠ 16 - 14 := by
  refine ⟨rfl, by decide, by decide, by decide⟩

/-- Modelled from the spec: the topology-changed bit of the response's
status flags (`pyignite.constants.RHF_TOPOLOGY_CHANGED` is not under
src/; the concrete bit position does not matter to the claims). -/
def RHF_TOPOLOGY_CHANGED : Nat := 1

/-- Modelled from the spec: the parsed response object `Query.perform`
post-processes (queries/response.py is not under src/) — status flags, the
affinity version pair carried when the topology-changed flag is set, the
64-bit status code, the error string carried on failure, and the decoded
value `response_struct.to_python` yields on success. -/
structure Response (RV : Type) where
  flags : Nat
  affinity_version : Int
  affinity_minor : Int
  status_code : Int
  error_message : String
  to_python_value : RV
deriving DecidableEq

/-- Modelled from the spec: `APIResult` (api/result.py is not under src/)
— a status code, an optional decoded value and an optional error message;
its constructor takes the status and, on a non-zero status, the error
message from the response, and leaves `value` unset. -/
structure APIResult (RV : Type) where
  status : Int
  value : Option RV
  message : Option String
deriving DecidableEq

/-- The `APIResult(response)` constructor call (query.py line 214). -/
def APIResult.of_response {RV : Type} (r : Response RV) : APIResult RV :=
  ⟨r.status_code, none, if r.status_code = 0 then none else some r.error_message⟩

/-- Python tuple comparison `new_affinity > old_affinity` on
`(major, minor)` pairs: lexicographic strict greater-than. -/
def pyGtPair (a b : Int × Int) : Bool :=
  decide (b.1 < a.1 ∨ (a.1 = b.1 ∧ b.2 < a.2))

/-- The affinity-version update of `Query.__post_process_response`
(query.py lines 203-211): when the response's flags carry
`RHF_TOPOLOGY_CHANGED` and the carried `(major, minor)` pair is strictly
greater than the held one, replace it; otherwise keep it. -/
def update_affinity {RV : Type} (st : Int × Int) (r : Response RV) : Int × Int :=
  if r.flags &&& RHF_TOPOLOGY_CHANGED ≠ 0 then
    if pyGtPair (r.affinity_version, r.affinity_minor) st then
      (r.affinity_version, r.affinity_minor)
    else st
  else st

/-- `Query.__post_process_response` (query.py lines 203-214): update the
shared affinity version, then build the `APIResult`. -/
def Query.post_process_response {RV : Type} (st : Int × Int) (r : Response RV) :
    (Int × Int) × APIResult RV :=
  (update_affinity st r, APIResult.of_response r)

/-- The connection collaborator of `Query.perform`: the held shared
affinity version (`conn.client.affinity_version`) and the opaque
request/response exchange composed with response parsing — `request` for
the blocking path, `requestAsync` for `await conn.request` composed with
`parse_async`/`read_ctype` on the cooperative path. -/
structure Conn (RV : Type) where
  affinity_version : Int × Int
  request : List Nat → Response RV
  requestAsync : List Nat → Response RV

/-- `Query.perform` (query.py lines 139-169): serialise the request into
a fresh stream, exchange it through the connection, post-process the
response (affinity update + `APIResult`), and populate `result.value`
from `to_python` exactly when the status is 0.  The returned pair is the
outcome together with the updated affinity version; the second component
logs the byte strings handed to `conn.request` (empty when serialisation
raised first). -/
def Query.perform {V RV : Type} (q : Query V) (conn : Conn RV) (rand : Int)
    (query_params : Option (List (String × V))) :
    Except PyErr (APIResult RV × (Int × Int)) × List (List Nat) :=
  match q.from_python rand query_params ⟨[], 0⟩ with
  | .error e => (.error e, [])
  | .ok stream =>
    let response := conn.request stream.getvalue
    let pr := Query.post_process_response conn.affinity_version response
    let result :=
      if pr.2.status = 0 then { pr.2 with value := some response.to_python_value } else pr.2
    (.ok (result, pr.1), [stream.getvalue])

/-- `Query.perform_async` (query.py lines 171-201): the cooperative
mirror of `perform` — field serialisation through `from_python_async`,
the exchange through the connection's cooperative call. -/
def Query.perform_async {V RV : Type} (q : Query V) (conn : Conn RV) (rand : Int)
    (query_params : Option (List (String × V))) :
    Except PyErr (APIResult RV × (Int × Int)) × List (List Nat) :=
  match q.from_python_async rand query_params ⟨[], 0⟩ with
  | .error e => (.error e, [])
  | .ok stream =>
    let response := conn.requestAsync stream.getvalue
    let pr := Query.post_process_response conn.affinity_version response
    let result :=
      if pr.2.status = 0 then { pr.2 with value := some response.to_python_value } else pr.2
    (.ok (result, pr.1), [stream.getvalue])

/-- `query_perform` (query.py lines 32-47), blocking branch: run
`perform` and apply the optional `post_process_fun` to the result. -/
def query_perform {V RV : Type} (q : Query V) (conn : Conn RV) (rand : Int)
    (query_params : Option (List (String × V)))
    (post_process_fun : Option (APIResult RV → APIResult RV)) :
    Except PyErr (APIResult RV × (Int × Int)) × List (List Nat) :=
  match q.perform conn rand query_params with
  | (.ok (result, aff), log) =>
    match post_process_fun with
    | some f => (.ok (f result, aff), log)
    | none => (.ok (result, aff), log)
  | other => other

/-- `query_perform` (query.py lines 32-47), cooperative branch. -/
def query_perform_async {V RV : Type} (q : Query V) (conn : Conn RV) (rand : Int)
    (query_params : Option (List (String × V)))
    (post_process_fun : Option (APIResult RV → APIResult RV)) :
    Except PyErr (APIResult RV × (Int × Int)) × List (List Nat) :=
  match q.perform_async conn rand query_params with
  | (.ok (result, aff), log) =>
    match post_process_fun with
    | some f => (.ok (f result, aff), log)
    | none => (.ok (result, aff), log)
  | other => other

/-- `__query_result_post_process` (sql.py lines 70-73): when the status
is 0 re-shape the value (`dict(result.value)`, here an opaque `dict_fn`),
otherwise return the result untouched. -/
def query_result_post_process {RV : Type} (dict_fn : RV → RV) (result : APIResult RV) :
    APIResult RV :=
  if result.status = 0 then { result with value := result.value.map dict_fn } else result

/-- The opaque `ExpiryPolicy` payload: `write_policy` is the byte string
`ExpiryPolicy.write_policy(stream, expiry_policy)` appends. -/
structure ExpiryPolicy where
  write_policy : List Nat
deriving DecidableEq

/-- The value a `CacheInfo` field serialises (query.py lines 50-54):
`cache_id`, the optional `expiry_policy`, and what
`value.protocol_context.is_expiry_policy_supported()` returns. -/
structure CacheInfoValue where
  cache_id : Int
  expiry_policy : Option ExpiryPolicy
  expiry_policy_supported : Bool
deriving DecidableEq

/-- `CacheInfo.from_python` (query.py lines 60-75): default `cache_id`/
`expiry_policy` to 0/None when `value` is falsy; write the 4-byte signed
cache id (`int.to_bytes` raises `OverflowError` out of range); when an
expiry policy is present, raise `NotSupportedByClusterError` unless the
protocol context supports it, else set flag bit 0x04; write the flags
byte and then the policy payload.  (In the Python code the cache-id bytes
are already on the stream when the raise happens; the raise still aborts
`Query.from_python`, so the observable outcome — error, nothing sent — is
the same.) -/
def CacheInfo.from_python (value : Option CacheInfoValue) : Except PyErr (List Nat) :=
  let cache_id : Int := match value with | some v => v.cache_id | none => 0
  if cache_id < -(2 ^ 31) ∨ 2 ^ 31 ≤ cache_id then .error .overflowError
  else
    match value with
    | none => .ok (i2bytesLE 4 cache_id ++ [0])
    | some v =>
      match v.expiry_policy with
      | none => .ok (i2bytesLE 4 cache_id ++ [0])
      | some pol =>
        if v.expiry_policy_supported then
          .ok (i2bytesLE 4 cache_id ++ [4] ++ pol.write_policy)
        else .error .notSupportedByClusterError

/-- The `CacheInfo` class used as a field codec (`from_python_async`
delegates to `from_python`, query.py lines 56-58). -/
def cacheInfoCodec : Codec (Option CacheInfoValue) :=
  ⟨CacheInfo.from_python, CacheInfo.from_python⟩

/-- Modelled from the spec: the lexicographic maximum of two
`(major, minor)` pairs. -/
def lexMaxPair (a b : Int × Int) : Int × Int := if pyGtPair b a then b else a

/-- The affinity versions carried by the topology-changed responses of a
list, in arrival order. -/
def topo_versions {RV : Type} (rs : List (Response RV)) : List (Int × Int) :=
  (rs.filter (fun r => decide (r.flags &&& RHF_TOPOLOGY_CHANGED ≠ 0))).map
    (fun r => (r.affinity_version, r.affinity_minor))

/-- Modelled from the spec: lexicographic (non-strict) order on
`(major, minor)` pairs. -/
def lexLePair (a b : Int × Int) : Prop := a.1 < b.1 ∨ (a.1 = b.1 ∧ a.2 ≤ b.2)

theorem lexLe_lexMax_left (a b : Int × Int) : lexLePair a (lexMaxPair a b) := by
  unfold lexMaxPair pyGtPair
  split_ifs with h <;> simp only [decide_eq_true_eq] at * <;> unfold lexLePair <;> omega

theorem lexLe_lexMax_right (a b : Int × Int) : lexLePair b (lexMaxPair a b) := by
  unfold lexMaxPair pyGtPair
  split_ifs with h <;> simp only [decide_eq_true_eq] at * <;> unfold lexLePair <;> omega

theorem lexMax_cases (a b : Int × Int) : lexMaxPair a b = a ∨ lexMaxPair a b = b := by
  unfold lexMaxPair
  split_ifs <;> simp

theorem lexLe_trans {a b c : Int × Int} (h1 : lexLePair a b) (h2 : lexLePair b c) :
    lexLePair a c := by
  unfold lexLePair at *
  omega

theorem lexLe_antisymm {a b : Int × Int} (h1 : lexLePair a b) (h2 : lexLePair b a) :
    a = b := by
  obtain ⟨a1, a2⟩ := a
  obtain ⟨b1, b2⟩ := b
  unfold lexLePair at *
  simp only [Prod.mk.injEq]
  omega

theorem foldl_lexmax_mem (vs : List (Int × Int)) :
    ∀ st, List.foldl lexMaxPair st vs = st ∨ List.foldl lexMaxPair st vs ∈ vs := by
  induction vs with
  | nil => intro st; exact Or.inl rfl
  | cons v t ih =>
    intro st
    rcases ih (lexMaxPair st v) with h | h
    · rcases lexMax_cases st v with h2 | h2
      · exact Or.inl (by simpa [h2] using h)
      · refine Or.inr ?_
        rw [List.foldl_cons, h, h2]
        exact List.mem_cons_self v t
    · exact Or.inr (List.mem_cons_of_mem v h)

theorem foldl_lexmax_ge_init (vs : List (Int × Int)) :
    ∀ st, lexLePair st (List.foldl lexMaxPair st vs) := by
  induction vs with
  | nil =>
    intro st
    show lexLePair st st
    unfold lexLePair
    omega
  | cons v t ih =>
    intro st
    exact lexLe_trans (lexLe_lexMax_left st v) (ih (lexMaxPair st v))

theorem foldl_lexmax_ge_mem (vs : List (Int × Int)) :
    ∀ st v, v ∈ vs → lexLePair v (List.foldl lexMaxPair st vs) := by
  induction vs with
  | nil => intro st v hv; cases hv
  | cons w t ih =>
    intro st v hv
    rcases List.mem_cons.mp hv with h | h
    · subst h
      exact lexLe_trans (lexLe_lexMax_right st v) (foldl_lexmax_ge_init t (lexMaxPair st v))
    · exact ih (lexMaxPair st w) v h

theorem foldl_update_eq_foldl_lexmax {RV : Type} (rs : List (Response RV)) :
    ∀ st, List.foldl update_affinity st rs = List.foldl lexMaxPair st (topo_versions rs) := by
  induction rs with
  | nil => intro st; rfl
  | cons r t ih =>
    intro st
    by_cases h : r.flags &&& RHF_TOPOLOGY_CHANGED ≠ 0
    · have htv : topo_versions (r :: t) =
          (r.affinity_version, r.affinity_minor) :: topo_versions t := by
        simp [topo_versions, List.filter, h]
      have hstep : update_affinity st r = lexMaxPair st (r.affinity_version, r.affinity_minor) := by
        unfold update_affinity lexMaxPair
        rw [if_pos h]
      rw [List.foldl_cons, hstep, htv, List.foldl_cons]
      exact ih _
    · have htv : topo_versions (r :: t) = topo_versions t := by
        simp [topo_versions, List.filter, h]
      have hstep : update_affinity st r = st := by
        unfold update_affinity
        rw [if_neg h]
      rw [List.foldl_cons, hstep, htv]
      exact ih st

theorem foldl_lexmax_le_of_perm {vs1 vs2 : List (Int × Int)} (st : Int × Int)
    (hperm : vs1.Perm vs2) :
    lexLePair (List.foldl lexMaxPair st vs1) (List.foldl lexMaxPair st vs2) := by
  rcases foldl_lexmax_mem vs1 st with h | h
  · rw [h]
    exact foldl_lexmax_ge_init vs2 st
  · exact foldl_lexmax_ge_mem vs2 st _ (hperm.mem_iff.mp h)

theorem foldl_update_perm_invariant {RV : Type} (st : Int × Int)
    {rs rs2 : List (Response RV)} (hperm : rs.Perm rs2) :
    List.foldl update_affinity st rs = List.foldl update_affinity st rs2 := by
  rw [foldl_update_eq_foldl_lexmax rs st, foldl_update_eq_foldl_lexmax rs2 st]
  have hp : (topo_versions rs).Perm (topo_versions rs2) :=
    List.Perm.map _ (List.Perm.filter _ hperm)
  exact lexLe_antisymm (foldl_lexmax_le_of_perm st hp) (foldl_lexmax_le_of_perm st hp.symm)

/-- C6: the shared affinity version is monotonic — `__post_process_response`
changes the held `(major, minor)` pair only when the response carries the
topology-changed flag and a lexicographically strictly greater pair; after
any sequence of responses the held version is the fold of the
lexicographic maximum over the initial version and the versions carried
by its topology-changed responses, and the outcome does not depend on
arrival order. -/
theorem affinity_version_monotonic {RV : Type} (st : Int × Int) (r : Response RV)
    (rs rs2 : List (Response RV)) (hperm : rs.Perm rs2) :
    (update_affinity st r ≠ st →
      r.flags &&& RHF_TOPOLOGY_CHANGED ≠ 0
        ∧ pyGtPair (r.affinity_version, r.affinity_minor) st = true)
    ∧ List.foldl update_affinity st rs = List.foldl lexMaxPair st (topo_versions rs)
    ∧ List.foldl update_affinity st rs = List.foldl update_affinity st rs2 := by
  refine ⟨?_, foldl_update_eq_foldl_lexmax rs st, foldl_update_perm_invariant st hperm⟩
  intro hne
  unfold update_affinity at hne
  by_cases h : r.flags &&& RHF_TOPOLOGY_CHANGED ≠ 0
  · refine ⟨h, ?_⟩
    rw [if_pos h] at hne
    by_cases hgt : pyGtPair (r.affinity_version, r.affinity_minor) st = true
    · exact hgt
    · rw [if_neg hgt] at hne
      exact absurd rfl hne
  · rw [if_neg h] at hne
    exact absurd rfl hne

/-- C6 witness: two topology-changed responses processed in either order
leave the held version at the lexicographic maximum (5, 1). -/
theorem affinity_version_monotonic_witness :
    List.foldl update_affinity ((0 : Int), (0 : Int))
      [(⟨1, 5, 1, 0, "", ()⟩ : Response Unit), ⟨1, 3, 9, 0, "", ()⟩] = (5, 1) :=
  ((affinity_version_monotonic (0, 0) ⟨1, 5, 1, 0, "", ()⟩
      [⟨1, 5, 1, 0, "", ()⟩, ⟨1, 3, 9, 0, "", ()⟩]
      [⟨1, 3, 9, 0, "", ()⟩, ⟨1, 5, 1, 0, "", ()⟩]
      (List.Perm.swap (⟨1, 3, 9, 0, "", ()⟩ : Response Unit)
        ⟨1, 5, 1, 0, "", ()⟩ [])).2.2).trans (by decide)

theorem runFieldsAsync_eq_runFields {V : Type} (vals : Option (List (String × V)))
    (fl : List (String × Codec V))
    (h : ∀ p ∈ fl, ∀ v, (Prod.snd p).encodeAsync v = (Prod.snd p).encode v) :
    ∀ s, runFieldsAsync vals fl s = runFields vals fl s := by
  induction fl with
  | nil => intro s; rfl
  | cons p t ih =>
    intro s
    obtain ⟨name, c⟩ := p
    have hc : ∀ v, c.encodeAsync v = c.encode v :=
      fun v => h (name, c) (List.mem_cons_self _ _) v
    unfold runFieldsAsync runFields
    cases vals with
    | none => rfl
    | some d =>
      dsimp only
      cases hdg : dict_get name d with
      | none => rfl
      | some v =>
        dsimp only
        rw [hc v]
        cases henc : c.encode v with
        | error e => rfl
        | ok bs => exact ih (fun p hp => h p (List.mem_cons_of_mem _ hp)) _

theorem from_python_async_eq_from_python {V : Type} (q : Query V) (rand : Int)
    (values : Option (List (String × V))) (st : ByteStream)
    (h : ∀ p ∈ q.following, ∀ v, (Prod.snd p).encodeAsync v = (Prod.snd p).encode v) :
    q.from_python_async rand values st = q.from_python rand values st := by
  unfold Query.from_python_async Query.from_python
  simp only [runFieldsAsync_eq_runFields (pyTruthy values) q.following h]

/-- C8: under the collaborator contract that each codec's cooperative
encoder agrees with its blocking encoder and the connection's
cooperative exchange agrees with its blocking one, `perform_async` and
`perform` return identical outcomes — same request bytes, same
`APIResult`, same affinity update — and so do the two branches of
`query_perform`. -/
theorem perform_async_eq_perform {V RV : Type} (q : Query V) (conn : Conn RV) (rand : Int)
    (params : Option (List (String × V)))
    (post : Option (APIResult RV → APIResult RV))
    (hcodec : ∀ p ∈ q.following, ∀ v, (Prod.snd p).encodeAsync v = (Prod.snd p).encode v)
    (hconn : conn.requestAsync = conn.request) :
    q.perform_async conn rand params = q.perform conn rand params
    ∧ query_perform_async q conn rand params post = query_perform q conn rand params post := by
  have hperf : q.perform_async conn rand params = q.perform conn rand params := by
    unfold Query.perform_async Query.perform
    rw [from_python_async_eq_from_python q rand params ⟨[], 0⟩ hcodec, hconn]
  refine ⟨hperf, ?_⟩
  unfold query_perform_async query_perform
  rw [hperf]

/-- C8 witness: a concrete one-field query against a concrete connection
runs identically along the two paths. -/
theorem perform_async_eq_perform_witness :
    (⟨1, [(("a"), constCodec [9])], none⟩ : Query Unit).perform_async
        (⟨(0, 0), fun _ => ⟨0, 0, 0, 0, "", ()⟩, fun _ => ⟨0, 0, 0, 0, "", ()⟩⟩ : Conn Unit)
        5 (some [(("a"), ())])
      = (⟨1, [(("a"), constCodec [9])], none⟩ : Query Unit).perform
        (⟨(0, 0), fun _ => ⟨0, 0, 0, 0, "", ()⟩, fun _ => ⟨0, 0, 0, 0, "", ()⟩⟩ : Conn Unit)
        5 (some [(("a"), ())]) :=
  (perform_async_eq_perform _ _ 5 _ none
    (by
      intro p hp v
      rw [List.mem_singleton] at hp
      subst hp
      rfl)
    rfl).1

/-- C7: every successful `Query.perform` outcome populates `value` exactly
when the status is 0, carries an error message whenever the status is
non-zero, and `__query_result_post_process` (the post-processing the sql
query functions apply through `query_perform`) preserves both facts. -/
theorem perform_value_iff_status_zero {V RV : Type} (q : Query V) (conn : Conn RV)
    (rand : Int) (params : Option (List (String × V))) (dict_fn : RV → RV)
    (out : APIResult RV × (Int × Int)) (log : List (List Nat))
    (h : q.perform conn rand params = (.ok out, log)) :
    (out.1.value.isSome ↔ out.1.status = 0)
    ∧ (out.1.status ≠ 0 → out.1.message.isSome = true)
    ∧ ((query_result_post_process dict_fn out.1).value.isSome
        ↔ (query_result_post_process dict_fn out.1).status = 0)
    ∧ ((query_result_post_process dict_fn out.1).status ≠ 0 →
        (query_result_post_process dict_fn out.1).message.isSome = true) := by
  unfold Query.perform at h
  cases hfp : q.from_python rand params ⟨[], 0⟩ with
  | error e =>
    rw [hfp] at h
    exact absurd h (by simp)
  | ok stream =>
    rw [hfp] at h
    dsimp only at h
    rw [Prod.mk.injEq, Except.ok.injEq] at h
    obtain ⟨hres, hlog⟩ := h
    obtain ⟨res, aff⟩ := out
    rw [Prod.mk.injEq] at hres
    obtain ⟨hres1, hres2⟩ := hres
    by_cases hs : (conn.request stream.getvalue).status_code = 0
    · simp only [Query.post_process_response, APIResult.of_response, hs, if_pos rfl] at hres1
      subst hres1
      simp [query_result_post_process, APIResult.of_response, hs]
    · simp only [Query.post_process_response, APIResult.of_response, if_neg hs] at hres1
      subst hres1
      simp [query_result_post_process, APIResult.of_response, hs]

/-- C7 witness: a concrete status-0 exchange populates the value. -/
theorem perform_value_iff_status_zero_witness :
    ((⟨0, some (), none⟩ : APIResult Unit).value.isSome
      ↔ (⟨0, some (), none⟩ : APIResult Unit).status = 0) :=
  (perform_value_iff_status_zero (⟨1, [], none⟩ : Query Unit)
    (⟨(0, 0), fun _ => ⟨0, 0, 0, 0, "", ()⟩, fun _ => ⟨0, 0, 0, 0, "", ()⟩⟩ : Conn Unit)
    0 none id (⟨0, some (), none⟩, (0, 0))
    [[10, 0, 0, 0, 1, 0, 0, 0, 0, 0, 0, 0, 0, 0]] rfl).1

/-- C9: a request whose cache-context value carries an expiry policy
while the connection's protocol context does not support expiry policies
fails during request building with `NotSupportedByClusterError`:
`Query.from_python` raises, and `Query.perform` therefore returns that
error with nothing handed to `conn.request`. -/
theorem expiry_policy_fails_before_send {RV : Type} (q : Query (Option CacheInfoValue))
    (conn : Conn RV) (rand : Int) (rest : List (String × Codec (Option CacheInfoValue)))
    (d : List (String × Option CacheInfoValue)) (civ : CacheInfoValue) (pol : ExpiryPolicy)
    (hfol : q.following = (("cache_info"), cacheInfoCodec) :: rest)
    (hlook : dict_get ("cache_info") d = some (some civ))
    (hd : d ≠ [])
    (hexp : civ.expiry_policy = some pol)
    (hsup : civ.expiry_policy_supported = false)
    (hrange : -(2 ^ 31) ≤ civ.cache_id ∧ civ.cache_id < 2 ^ 31) :
    q.from_python rand (some d) ⟨[], 0⟩ = .error .notSupportedByClusterError
    ∧ q.perform conn rand (some d) = (.error .notSupportedByClusterError, []) := by
  have htruthy : pyTruthy (some d) = some d := by
    cases d with
    | nil => exact absurd rfl hd
    | cons p t => rfl
  have henc : CacheInfo.from_python (some civ) = .error .notSupportedByClusterError := by
    unfold CacheInfo.from_python
    dsimp only
    rw [if_neg (by omega)]
    rw [hexp]
    dsimp only
    rw [hsup]
    rfl
  have hrun : runFields (pyTruthy (some d)) q.following (ByteStream.seekCur ⟨[], 0⟩ Query.header_len)
      = .error .notSupportedByClusterError := by
    rw [htruthy, hfol]
    unfold runFields
    dsimp only
    rw [hlook]
    dsimp only
    have henc2 : cacheInfoCodec.encode (some civ)
        = Except.error PyErr.notSupportedByClusterError := henc
    rw [henc2]
  have hfp : q.from_python rand (some d) ⟨[], 0⟩ = .error .notSupportedByClusterError := by
    unfold Query.from_python
    dsimp only
    rw [show (q.build_header rand ⟨[], 0⟩).2 = ByteStream.seekCur ⟨[], 0⟩ Query.header_len from rfl]
    rw [hrun]
  refine ⟨hfp, ?_⟩
  unfold Query.perform
  rw [hfp]

/-- C9 witness: a concrete cache-info value with an expiry policy on an
unsupporting protocol context makes `perform` fail fast with nothing
sent. -/
theorem expiry_policy_fails_before_send_witness :
    (⟨1, [(("cache_info"), cacheInfoCodec)], some 0⟩ : Query (Option CacheInfoValue)).perform
        (⟨(0, 0), fun _ => ⟨0, 0, 0, 0, "", ()⟩, fun _ => ⟨0, 0, 0, 0, "", ()⟩⟩ : Conn Unit)
        0 (some [(("cache_info"), some ⟨1, some ⟨[7]⟩, false⟩)])
      = (.error .notSupportedByClusterError, []) :=
  (expiry_policy_fails_before_send
    (⟨1, [(("cache_info"), cacheInfoCodec)], some 0⟩ : Query (Option CacheInfoValue))
    (⟨(0, 0), fun _ => ⟨0, 0, 0, 0, "", ()⟩, fun _ => ⟨0, 0, 0, 0, "", ()⟩⟩ : Conn Unit)
    0 [] [(("cache_info"), some ⟨1, some ⟨[7]⟩, false⟩)] ⟨1, some ⟨[7]⟩, false⟩ ⟨[7]⟩
    rfl rfl (List.cons_ne_nil _ _) rfl rfl (by decide)).2

theorem i2bytesLE_length (w : Nat) (v : Int) : (i2bytesLE w v).length = w := by
  simp [i2bytesLE]

theorem write_shape (s : ByteStream) (bs : List Nat) (h : s.data.length ≤ s.pos) :
    (s.write bs).data.length = s.pos + bs.length ∧ (s.write bs).pos = s.pos + bs.length := by
  unfold ByteStream.write
  refine ⟨?_, rfl⟩
  dsimp only
  split_ifs with hlt
  · simp only [List.length_append, List.length_take, List.length_drop, List.length_replicate]
    omega
  · simp only [List.length_append, List.length_take, List.length_drop]
    omega

theorem runFields_stream_shape {V : Type} (vals : Option (List (String × V)))
    (fl : List (String × Codec V)) :
    ∀ s s2 : ByteStream, s.data.length ≤ s.pos → runFields vals fl s = .ok s2 →
      s2.data.length ≤ s2.pos ∧ s.pos ≤ s2.pos ∧ (s2.data.length = s2.pos ∨ s2 = s) := by
  induction fl with
  | nil =>
    intro s s2 hlen hok
    unfold runFields at hok
    rw [Except.ok.injEq] at hok
    subst hok
    exact ⟨hlen, le_refl _, Or.inr rfl⟩
  | cons p t ih =>
    intro s s2 hlen hok
    obtain ⟨name, c⟩ := p
    unfold runFields at hok
    cases vals with
    | none => exact absurd hok (by simp)
    | some d =>
      dsimp only at hok
      cases hdg : dict_get name d with
      | none => rw [hdg] at hok; exact absurd hok (by simp)
      | some v =>
        rw [hdg] at hok
        dsimp only at hok
        cases henc : c.encode v with
        | error e => rw [henc] at hok; exact absurd hok (by simp)
        | ok bs =>
          rw [henc] at hok
          dsimp only at hok
          obtain ⟨hw1, hw2⟩ := write_shape s bs hlen
          obtain ⟨h1, h2, h3⟩ := ih (s.write bs) s2 (by omega) hok
          refine ⟨h1, by omega, ?_⟩
          rcases h3 with h3 | h3
          · exact Or.inl h3
          · subst h3
            exact Or.inl (by omega)

theorem runFieldsAsync_stream_shape {V : Type} (vals : Option (List (String × V)))
    (fl : List (String × Codec V)) :
    ∀ s s2 : ByteStream, s.data.length ≤ s.pos → runFieldsAsync vals fl s = .ok s2 →
      s2.data.length ≤ s2.pos ∧ s.pos ≤ s2.pos ∧ (s2.data.length = s2.pos ∨ s2 = s) := by
  induction fl with
  | nil =>
    intro s s2 hlen hok
    unfold runFieldsAsync at hok
    rw [Except.ok.injEq] at hok
    subst hok
    exact ⟨hlen, le_refl _, Or.inr rfl⟩
  | cons p t ih =>
    intro s s2 hlen hok
    obtain ⟨name, c⟩ := p
    unfold runFieldsAsync at hok
    cases vals with
    | none => exact absurd hok (by simp)
    | some d =>
      dsimp only at hok
      cases hdg : dict_get name d with
      | none => rw [hdg] at hok; exact absurd hok (by simp)
      | some v =>
        rw [hdg] at hok
        dsimp only at hok
        cases henc : c.encodeAsync v with
        | error e => rw [henc] at hok; exact absurd hok (by simp)
        | ok bs =>
          rw [henc] at hok
          dsimp only at hok
          obtain ⟨hw1, hw2⟩ := write_shape s bs hlen
          obtain ⟨h1, h2, h3⟩ := ih (s.write bs) s2 (by omega) hok
          refine ⟨h1, by omega, ?_⟩
          rcases h3 with h3 | h3
          · exact Or.inl h3
          · subst h3
            exact Or.inl (by omega)

theorem take4_append (l r : List Nat) (hl : l.length = 4) : (l ++ r).take 4 = l := by
  rw [show (4 : Nat) = l.length from hl.symm]
  exact List.take_left l r

theorem decodeLENat_i2bytesLE4 (v : Int) :
    decodeLENat (i2bytesLE 4 v) = (v % 2 ^ 32).toNat := by
  have hr : List.range 4 = [0, 1, 2, 3] := rfl
  unfold decodeLENat i2bytesLE
  rw [hr]
  simp only [List.map, List.foldr]
  rw [Nat.shiftRight_eq_div_pow, Nat.shiftRight_eq_div_pow, Nat.shiftRight_eq_div_pow,
    Nat.shiftRight_eq_div_pow]
  norm_num
  omega

theorem specParsedLength_frame (v : Int) (rest : List Nat) (h0 : 0 ≤ v) (h1 : v < 2 ^ 31) :
    specParsedLength (i2bytesLE 4 v ++ rest) = v := by
  unfold specParsedLength
  rw [take4_append _ _ (i2bytesLE_length 4 v), decodeLENat_i2bytesLE4]
  rw [if_pos (by omega)]
  omega

theorem write_header_frame (inner : ByteStream) (hdr : QueryHeader)
    (h14 : 14 ≤ inner.pos)
    (hshape : inner.data.length = inner.pos ∨ (inner.data = [] ∧ inner.pos = 14)) :
    (Query.write_header inner hdr 0).getvalue
        = i2bytesLE 4 ((inner.pos : Int) - 4) ++ i2bytesLE 2 hdr.op_code
            ++ i2bytesLE 8 hdr.query_id ++ inner.data.drop 14
    ∧ (Query.write_header inner hdr 0).getvalue.length = inner.pos := by
  unfold Query.write_header ByteStream.seekTo ByteStream.write ByteStream.getvalue
    ByteStream.tell QueryHeader.toBytes
  dsimp only
  rw [if_neg (by omega)]
  have hcast : (inner.pos : Int) - ((0 : Nat) : Int) - 4 = (inner.pos : Int) - 4 := by
    omega
  rw [hcast]
  have hlen14 : (i2bytesLE 4 ((inner.pos : Int) - 4) ++ i2bytesLE 2 hdr.op_code
      ++ i2bytesLE 8 hdr.query_id).length = 14 := by
    simp [i2bytesLE_length]
  constructor
  · rw [List.take_zero, List.nil_append, Nat.zero_add, hlen14]
  · rw [List.take_zero, List.nil_append, Nat.zero_add, hlen14]
    rw [List.length_append, hlen14, List.length_drop]
    rcases hshape with h | h
    · rw [h]
      omega
    · obtain ⟨hd, hp⟩ := h
      rw [hd, hp]
      simp

/-- C5: for every frame `Query.from_python` or `Query.from_python_async`
produces (into a fresh stream, as `perform` does), the 4-byte
little-endian length prefix holds exactly the total frame length minus 4
— the prefix covers every byte after itself — whatever the declared
fields and values are, as long as the frame fits a signed 32-bit
length. -/
theorem length_prefix_eq_frame_length :
    (∀ {V : Type} (q : Query V) (rand : Int) (values : Option (List (String × V)))
        (s2 : ByteStream),
        q.from_python rand values ⟨[], 0⟩ = .ok s2 →
        s2.getvalue.length < 2 ^ 31 + 4 →
        specParsedLength s2.getvalue = (s2.getvalue.length : Int) - 4)
    ∧ (∀ {V : Type} (q : Query V) (rand : Int) (values : Option (List (String × V)))
        (s2 : ByteStream),
        q.from_python_async rand values ⟨[], 0⟩ = .ok s2 →
        s2.getvalue.length < 2 ^ 31 + 4 →
        specParsedLength s2.getvalue = (s2.getvalue.length : Int) - 4) := by
  constructor
  · intro V q rand values s2 hok hbound
    unfold Query.from_python at hok
    dsimp only [Query.build_header, ByteStream.tell] at hok
    cases hrun : runFields (pyTruthy values) q.following
        (ByteStream.seekCur ⟨[], 0⟩ Query.header_len) with
    | error e => rw [hrun] at hok; exact absurd hok (by simp)
    | ok inner =>
      rw [hrun] at hok
      dsimp only at hok
      rw [Except.ok.injEq] at hok
      obtain ⟨hl1, hl2, hl3⟩ := runFields_stream_shape (pyTruthy values) q.following
        (ByteStream.seekCur ⟨[], 0⟩ Query.header_len) inner (by simp [ByteStream.seekCur]) hrun
      have h14 : 14 ≤ inner.pos := hl2
      have hshape : inner.data.length = inner.pos ∨ (inner.data = [] ∧ inner.pos = 14) := by
        rcases hl3 with h | h
        · exact Or.inl h
        · refine Or.inr ⟨?_, ?_⟩
          · rw [h]
            rfl
          · rw [h]
            rfl
      obtain ⟨hframe, hlen⟩ := write_header_frame inner
        ⟨0, q.op_code, match q.query_id with | none => rand | some _ => 0⟩ h14 hshape
      rw [← hok] at hbound ⊢
      rw [hlen] at hbound ⊢
      rw [hframe]
      simp only [List.append_assoc]
      rw [specParsedLength_frame _ _ (by omega) (by omega)]
  · intro V q rand values s2 hok hbound
    unfold Query.from_python_async at hok
    dsimp only [Query.build_header, ByteStream.tell] at hok
    cases hrun : runFieldsAsync (pyTruthy values) q.following
        (ByteStream.seekCur ⟨[], 0⟩ Query.header_len) with
    | error e => rw [hrun] at hok; exact absurd hok (by simp)
    | ok inner =>
      rw [hrun] at hok
      dsimp only at hok
      rw [Except.ok.injEq] at hok
      obtain ⟨hl1, hl2, hl3⟩ := runFieldsAsync_stream_shape (pyTruthy values) q.following
        (ByteStream.seekCur ⟨[], 0⟩ Query.header_len) inner (by simp [ByteStream.seekCur]) hrun
      have h14 : 14 ≤ inner.pos := hl2
      have hshape : inner.data.length = inner.pos ∨ (inner.data = [] ∧ inner.pos = 14) := by
        rcases hl3 with h | h
        · exact Or.inl h
        · refine Or.inr ⟨?_, ?_⟩
          · rw [h]
            rfl
          · rw [h]
            rfl
      obtain ⟨hframe, hlen⟩ := write_header_frame inner
        ⟨0, q.op_code, match q.query_id with | none => rand | some _ => 0⟩ h14 hshape
      rw [← hok] at hbound ⊢
      rw [hlen] at hbound ⊢
      rw [hframe]
      simp only [List.append_assoc]
      rw [specParsedLength_frame _ _ (by omega) (by omega)]

/-- C5 witness: a concrete one-field query yields a 17-byte frame whose
length prefix decodes to 13. -/
theorem length_prefix_eq_frame_length_witness :
    specParsedLength [13, 0, 0, 0, 1, 0, 0, 0, 0, 0, 0, 0, 0, 0, 9, 9, 9]
      = (([13, 0, 0, 0, 1, 0, 0, 0, 0, 0, 0, 0, 0, 0, 9, 9, 9] : List Nat).length : Int) - 4 :=
  length_prefix_eq_frame_length.1 (⟨1, [(("a"), constCodec [9, 9, 9])], some 0⟩ : Query Unit) 0
    (some [(("a"), ())]) ⟨[13, 0, 0, 0, 1, 0, 0, 0, 0, 0, 0, 0, 0, 0, 9, 9, 9], 14⟩
    rfl (by decide)

theorem runFields_missing_key {V : Type} (d : List (String × V)) :
    ∀ (fl : List (String × Codec V)) (s : ByteStream),
      (∀ p ∈ fl, ∀ v, ∃ bs, (Prod.snd p).encode v = .ok bs) →
      (∃ p ∈ fl, dict_get (Prod.fst p) d = none) →
      runFields (some d) fl s = .error .keyError := by
  intro fl
  induction fl with
  | nil =>
    intro s hok hmiss
    obtain ⟨p, hp, _⟩ := hmiss
    cases hp
  | cons p t ih =>
    intro s hok hmiss
    obtain ⟨name, c⟩ := p
    unfold runFields
    dsimp only
    cases hdg : dict_get name d with
    | none => rfl
    | some v =>
      dsimp only
      obtain ⟨bs, hbs⟩ := hok (name, c) (List.mem_cons_self _ _) v
      rw [hbs]
      dsimp only
      refine ih (s.write bs) (fun p hp => hok p (List.mem_cons_of_mem _ hp)) ?_
      obtain ⟨p2, hp2, hmiss2⟩ := hmiss
      rcases List.mem_cons.mp hp2 with h | h
      · subst h
        rw [hdg] at hmiss2
        cases hmiss2
      · exact ⟨p2, h, hmiss2⟩

theorem runFields_ok_names {V : Type} (vals : Option (List (String × V))) :
    ∀ (fl : List (String × Codec V)) (s s2 : ByteStream),
      runFields vals fl s = .ok s2 →
      ∀ p ∈ fl, ∃ d, vals = some d ∧ (dict_get (Prod.fst p) d).isSome = true := by
  intro fl
  induction fl with
  | nil =>
    intro s s2 hok p hp
    cases hp
  | cons q t ih =>
    intro s s2 hok p hp
    obtain ⟨name, c⟩ := q
    unfold runFields at hok
    cases vals with
    | none => exact absurd hok (by simp)
    | some d =>
      dsimp only at hok
      cases hdg : dict_get name d with
      | none => rw [hdg] at hok; exact absurd hok (by simp)
      | some v =>
        rw [hdg] at hok
        dsimp only at hok
        cases henc : c.encode v with
        | error e => rw [henc] at hok; exact absurd hok (by simp)
        | ok bs =>
          rw [henc] at hok
          dsimp only at hok
          rcases List.mem_cons.mp hp with h | h
          · subst h
            exact ⟨d, rfl, by rw [hdg]; rfl⟩
          · exact ih (s.write bs) s2 hok p h

/-- C10: a `Query` with a non-empty declared field list serialises only
when given a truthy values mapping that contains every declared name:
with `values` absent or empty the loop raises `TypeError`; with a
non-empty mapping missing a declared name (and codecs that do not fail
first) it raises `KeyError`; every successful serialisation had a truthy
mapping containing every declared name; and when serialisation raises,
`perform` hands nothing to the connection. -/
theorem from_python_requires_declared_values :
    (∀ {V : Type} (q : Query V) (rand : Int) (st : ByteStream), q.following ≠ [] →
        q.from_python rand none st = .error .typeError
          ∧ q.from_python rand (some []) st = .error .typeError)
    ∧ (∀ {V : Type} (q : Query V) (rand : Int) (st : ByteStream) (d : List (String × V)),
        d ≠ [] →
        (∀ p ∈ q.following, ∀ v, ∃ bs, (Prod.snd p).encode v = .ok bs) →
        (∃ p ∈ q.following, dict_get (Prod.fst p) d = none) →
        q.from_python rand (some d) st = .error .keyError)
    ∧ (∀ {V : Type} (q : Query V) (rand : Int) (st s2 : ByteStream)
        (values : Option (List (String × V))),
        q.from_python rand values st = .ok s2 →
        ∀ p ∈ q.following, ∃ d, pyTruthy values = some d
          ∧ (dict_get (Prod.fst p) d).isSome = true)
    ∧ (∀ {V RV : Type} (q : Query V) (conn : Conn RV) (rand : Int), q.following ≠ [] →
        (q.perform conn rand none).2 = [] ∧ (q.perform conn rand (some [])).2 = []) := by
  have h1 : ∀ {V : Type} (q : Query V) (rand : Int) (st : ByteStream), q.following ≠ [] →
      q.from_python rand none st = .error .typeError
        ∧ q.from_python rand (some []) st = .error .typeError := by
    intro V q rand st hne
    cases hf : q.following with
    | nil => exact absurd hf hne
    | cons p t =>
      obtain ⟨name, c⟩ := p
      constructor
      · unfold Query.from_python
        rw [hf]
        rfl
      · unfold Query.from_python
        rw [hf]
        rfl
  refine ⟨h1, ?_, ?_, ?_⟩
  · intro V q rand st d hd hok hmiss
    have htruthy : pyTruthy (some d) = some d := by
      cases d with
      | nil => exact absurd rfl hd
      | cons p t => rfl
    unfold Query.from_python
    dsimp only
    rw [htruthy, runFields_missing_key d q.following _ hok hmiss]
  · intro V q rand st s2 values hok p hp
    unfold Query.from_python at hok
    dsimp only at hok
    cases hrun : runFields (pyTruthy values) q.following
        ((q.build_header rand st).2) with
    | error e => rw [hrun] at hok; exact absurd hok (by simp)
    | ok inner => exact runFields_ok_names (pyTruthy values) q.following _ inner hrun p hp
  · intro V RV q conn rand hne
    obtain ⟨ha, hb⟩ := h1 q rand ⟨[], 0⟩ hne
    constructor
    · unfold Query.perform
      rw [ha]
    · unfold Query.perform
      rw [hb]

/-- C10 witness: a concrete one-field query given no values raises
`TypeError`. -/
theorem from_python_requires_declared_values_witness :
    (⟨1, [(("a"), constCodec [9])], some 0⟩ : Query Unit).from_python 0 none ⟨[], 0⟩
      = .error .typeError :=
  (from_python_requires_declared_values.1
    (⟨1, [(("a"), constCodec [9])], some 0⟩ : Query Unit) 0 ⟨[], 0⟩
    (List.cons_ne_nil _ _)).1
